import Mathlib

/-!
# gin-jwt-session: session facade and JWT validation

A shallow embedding of `gin-jwt-session.go` (package `session`) and of
`example/models/login.go`.

The package is glue over two libraries that are not part of the repository:
gorilla/sessions (the cookie store) and jwt-go (the token codec).  Their
behaviour is represented as follows.

* A request carries, per cookie name, what the store obtains when it decodes
  the cookie of that name (`Incoming`): a value map, or an error.
* The store keeps one session object per name and request (gorilla's
  registry); Go hands out pointers to that object, here every operation
  writes the session it changed back into the registry of the `Context`.
* What the libraries compute from bytes (cookie encoding, token signing and
  parsing) is a parameter, `Lib`.
* Keys of `session.Values` are compared with Go's `==` (`GoEq`), under which a
  floating-point NaN is equal to nothing.
* Go strings are Lean strings, which are the strings in valid UTF-8; the
  username given to `GenerateJWTToken` is a `GoString`, which may also hold
  invalid bytes, because JSON does not carry those unchanged.

The facade operations are modelled for a process in which `NewStore` has
run, which the package documentation requires before any of them is called.
-/

set_option linter.dupNamespace false

namespace GinJwtSession

/-! ## Go values -/

/-- Go errors, represented by their message; `Option Err` is the Go `error`
interface and `none` is the nil error. -/
abbrev Err := String

/-- The values of a Go `float64`, as far as `==` tells them apart: not a
number, the two infinities, and the finite values (the two zeros are equal
and are both `finite 0`). -/
inductive Float64 where
  | nan
  | posInf
  | negInf
  | finite (q : ℚ)
  deriving DecidableEq

/-- Comparable Go values: what may be used as a key of `session.Values`
(a `map[interface{}]interface{}`).  `nil` is the nil interface. -/
inductive Scalar where
  | nil
  | str (s : String)
  | int (n : Int)
  | bool (b : Bool)
  | float (x : Float64)
  deriving DecidableEq

/-- Go's `==` on comparable interface values, which a map uses to find a key:
a floating-point `NaN` is equal to nothing, not even to itself. -/
def Scalar.goEq : Scalar → Scalar → Bool
  | .float .nan, _ => false
  | a, b => decide (a = b)

/-- Key types of Go maps with their `==`; keys that `==` identifies are the
same value. -/
class GoEq (κ : Type) where
  goEq : κ → κ → Bool
  eq_of_goEq : ∀ a b : κ, goEq a b = true → a = b

instance : GoEq String where
  goEq a b := decide (a = b)
  eq_of_goEq := by
    intro a b h
    simpa using h

instance : GoEq Scalar where
  goEq := Scalar.goEq
  eq_of_goEq := by
    intro a b h
    unfold Scalar.goEq at h
    split at h
    · simp at h
    · simpa using h

/-- Go values of type `interface{}` stored in a session: a comparable value or
a `[]interface{}` (the type gorilla uses for flash lists). -/
inductive Val where
  | scalar (a : Scalar)
  | slice (xs : List Val)

/-- The nil interface value. -/
def Val.nil : Val := .scalar .nil

/-- A Go string as an interface value. -/
def Val.str (s : String) : Val := .scalar (.str s)

/-- A Go int as an interface value. -/
def Val.int (n : Int) : Val := .scalar (.int n)

/-! ## Go maps, as association lists -/

/-- Map lookup with presence, Go's `v, ok := m[k]`. -/
def mapGet {κ α : Type} [GoEq κ] : List (κ × α) → κ → Option α
  | [], _ => none
  | (k0, v) :: rest, k => if GoEq.goEq k0 k then some v else mapGet rest k

/-- Map deletion, Go's `delete(m, k)`. -/
def mapDelete {κ α : Type} [GoEq κ] : List (κ × α) → κ → List (κ × α)
  | [], _ => []
  | (k0, v) :: rest, k =>
    if GoEq.goEq k0 k then mapDelete rest k else (k0, v) :: mapDelete rest k

/-- Map assignment, Go's `m[k] = v`: the entry of a key equal to `k` is
replaced, and a key equal to nothing gets a new entry each time. -/
def mapSet {κ α : Type} [GoEq κ] (m : List (κ × α)) (k : κ) (v : α) : List (κ × α) :=
  (k, v) :: mapDelete m k

/-- The type of `session.Values`. -/
abbrev Values := List (Scalar × Val)

/-- Go's `m[k]` on `session.Values`: the nil interface when the key is absent. -/
def Values.index (m : Values) (k : Scalar) : Val :=
  match mapGet m k with
  | some v => v
  | none => Val.nil

/-! ## gorilla/sessions -/

/-- The struct `sessions.Options` (cookie attributes). -/
structure Options where
  Path : String
  Domain : String
  MaxAge : Int
  Secure : Bool
  HttpOnly : Bool
  deriving DecidableEq

/-- The struct `sessions.Session`; its name is the key it has in the registry. -/
structure Session where
  Values : Values
  Options : Options
  IsNew : Bool

/-- What the store obtains for a session name from the request: the values
decoded from the cookie of that name, or the error `store.Get` reports for
the name (a cookie that cannot be decoded, a name the store rejects). -/
inductive Incoming where
  | values (vs : Values)
  | fails (e : Err)

/-- A `Set-Cookie` written to the response by `session.Save`: the session
name, the values that were encoded and the cookie attributes. -/
structure SetCookie where
  name : String
  values : Values
  options : Options

/-- The part of a `*gin.Context` the package touches: the `Authorization`
request header, the request cookies, the per-request session registry and the
cookies written to the response. -/
structure Context where
  Authorization : String
  incoming : List (String × Incoming)
  registry : List (String × Session × Option Err)
  written : List SetCookie

/-- One item of a Go string as package `utf8` reads it: a Unicode character,
standing for its UTF-8 encoding, or one of the bytes that occur in no UTF-8
encoding at all (`0xC0`, `0xC1` and `0xF5` to `0xFF`), which is read as an
invalid byte whatever stands around it. -/
inductive GoChar where
  | rune (c : Char)
  | byte (b : UInt8) (never : b = 192 ∨ b = 193 ∨ 245 ≤ b)

/-- The Go strings made of characters in valid UTF-8 and of bytes that occur
in no UTF-8 encoding: all strings that are valid UTF-8, and some that are not. -/
abbrev GoString := List GoChar

/-- What a Go string is after `encoding/json` encoded it and decoded it again:
every invalid byte has become the replacement character U+FFFD. -/
def jsonString (g : GoString) : String :=
  String.mk (g.map fun x =>
    match x with
    | .rune c => c
    | .byte _ _ => Char.ofNat 65533)

/-- A value in the claims handed to the signer, a Go value before it is
encoded: an `int64` or a string. -/
inductive ClaimVal where
  | int (n : Int)
  | str (g : GoString)

/-- The `jwt.MapClaims` handed to the signer. -/
abbrev SignedClaims := List (String × ClaimVal)

/-- The `jwt.MapClaims` of a parsed token: values decoded from JSON, whose
strings are valid UTF-8. -/
abbrev MapClaims := List (String × Val)

/-- The interface `jwt.Claims`: a `jwt.MapClaims` or some other claims type. -/
inductive Claims where
  | mapClaims (m : MapClaims)
  | other

/-- The fields of `jwt.Token` the package reads. -/
structure Token where
  Valid : Bool
  Claims : Claims

/-- Behaviour of the libraries on bytes.
* `encodeError name values` is the error of `securecookie.EncodeMulti`
  (`none`: the values were encoded);
* `SignedString key claims` is `token.SignedString(key)` for an HS256 token
  with these claims;
* `ParseFromRequest key now header` is `request.ParseFromRequest` with
  `AuthorizationHeaderExtractor`, a key function returning `key`, the clock at
  `now` (Unix seconds) and the request header `Authorization` equal to
  `header`. -/
structure Lib where
  encodeError : String → Values → Option Err
  SignedString : String → SignedClaims → String
  ParseFromRequest : String → Int → String → Except Err Token

/-- The options of a store made by `sessions.NewCookieStore`. -/
def storeOptions : Options :=
  { Path := "/", Domain := "", MaxAge := 86400 * 30, Secure := false, HttpOnly := false }

/-- The method `CookieStore.New`: a new session, filled from the request
cookie of that name when there is one. -/
def storeNew (c : Context) (name : String) : Session × Option Err :=
  match mapGet c.incoming name with
  | none => ({ Values := [], Options := storeOptions, IsNew := true }, none)
  | some (.values vs) => ({ Values := vs, Options := storeOptions, IsNew := false }, none)
  | some (.fails e) => ({ Values := [], Options := storeOptions, IsNew := true }, some e)

/-- The call `store.Get(c.Request, name)`: the session registered for the name
in this request, created and registered on first use. -/
def storeGet (c : Context) (name : String) : Context × Session × Option Err :=
  match mapGet c.registry name with
  | some r => (c, r)
  | none =>
    let r := storeNew c name
    ({ c with registry := mapSet c.registry name r }, r)

/-- Write a changed session back under its name (Go mutates it through the
pointer that `store.Get` returned). -/
def putSession (c : Context) (name : String) (s : Session) : Context :=
  { c with registry := mapSet c.registry name (s, none) }

/-- The call `session.Save(c.Request, c.Writer)` of a cookie store. -/
def Save (lib : Lib) (c : Context) (name : String) (s : Session) : Context × Option Err :=
  match lib.encodeError name s.Values with
  | some e => (c, some e)
  | none => ({ c with written := c.written ++ [⟨name, s.Values, s.Options⟩] }, none)

/-- The method `Session.AddFlash(value, key)`; `none` is the panic of the type
assertion on a value that is not a `[]interface{}`. -/
def AddFlash (s : Session) (value : Val) (key : String) : Option Session :=
  match mapGet s.Values (.str key) with
  | none => some { s with Values := mapSet s.Values (.str key) (.slice [value]) }
  | some (.slice fl) => some { s with Values := mapSet s.Values (.str key) (.slice (fl ++ [value])) }
  | some (.scalar _) => none

/-- The method `Session.Flashes(key)`: the flashes under the key, which is
removed; `none` is the panic of the type assertion. -/
def Flashes (s : Session) (key : String) : Option (Session × List Val) :=
  match mapGet s.Values (.str key) with
  | none => some (s, [])
  | some (.slice fl) => some ({ s with Values := mapDelete s.Values (.str key) }, fl)
  | some (.scalar _) => none

/-! ## Package `session`: variables -/

/-- The constant `defaultShortName`. -/
def defaultShortName : String := "default"

/-- The package variables `SecretKey`, `JwtTokenName`,
`DefaultFlashSessionName`, `DefaultSessionName` and `DefaultOption`. -/
structure Config where
  SecretKey : String
  JwtTokenName : String
  DefaultFlashSessionName : String
  DefaultSessionName : String
  DefaultOption : Options

/-- The values the package variables are declared with. -/
def initialConfig : Config :=
  { SecretKey := "welcome to Scott Huang's Session and JWT util, please change to your secret accodingly."
    JwtTokenName := "jwtTokenSession"
    DefaultFlashSessionName := "myDefaultFlashSessionName"
    DefaultSessionName := "myDefaultSessionName"
    DefaultOption := { Path := "/", Domain := "", MaxAge := 3600 * 1, Secure := false, HttpOnly := true } }

/-- The value `sessions.NewCookieStore([]byte(key))`: the store keeps the key
it was built from. -/
structure CookieStore where
  hashKey : String
  Options : Options
  deriving DecidableEq

/-- The constructor `sessions.NewCookieStore`. -/
def NewCookieStore (key : String) : CookieStore :=
  { hashKey := key, Options := storeOptions }

/-- All package-level state: the configuration variables, the `sync.Once`
(`true` once its function has run) and the variable `store` (`none` is the
nil pointer). -/
structure Package where
  cfg : Config
  once : Bool
  store : Option CookieStore

/-- The function `newStore`. -/
def newStore (p : Package) : Package :=
  { p with store := some (NewCookieStore p.cfg.SecretKey) }

/-- The function `NewStore`, that is `once.Do(newStore)`: `newStore` runs when
the `sync.Once` has not run anything yet. -/
def NewStore (p : Package) : Package :=
  if p.once then p else { newStore p with once := true }

/-- Whether a call of `NewStore` in this state executes `newStore`. -/
def NewStore.constructs (p : Package) : Bool := !p.once

/-- What the program may do to the package state: call `NewStore` or assign
the configuration variables. -/
inductive Step where
  | callNewStore
  | assign (cfg : Config)

/-- One step on the package state. -/
def Step.run (p : Package) : Step → Package
  | .callNewStore => NewStore p
  | .assign cfg => { p with cfg := cfg }

/-- A sequence of steps on the package state. -/
def runSteps (p : Package) (steps : List Step) : Package :=
  steps.foldl Step.run p

/-- How many times `newStore` is executed along a sequence of steps. -/
def constructions : Package → List Step → Nat
  | _, [] => 0
  | p, .callNewStore :: rest =>
    (if NewStore.constructs p then 1 else 0) + constructions (NewStore p) rest
  | p, .assign cfg :: rest => constructions { p with cfg := cfg } rest

/-- What the callers of `NewStore` find in the variable `store` when their
call returns, in the order of the calls. -/
def observations : Package → List Step → List (Option CookieStore)
  | _, [] => []
  | p, .callNewStore :: rest => (NewStore p).store :: observations (NewStore p) rest
  | p, .assign cfg :: rest => observations { p with cfg := cfg } rest

/-- The package state when the program starts. -/
def initialPackage : Package :=
  { cfg := initialConfig, once := false, store := none }

/-! ## Package `session`: the session facade -/

/-- The struct `Message`. `Options = none` is the nil pointer. -/
structure Message where
  Key : Scalar
  Value : Val
  SessionName : String := ""
  Options : Option Options := none

/-- The struct `Flash`. -/
structure Flash where
  Flash : Val
  SessionName : String

/-- The function `SetMessage`. (`len(s) == 0` holds exactly for the empty
string.) -/
def SetMessage (lib : Lib) (cfg : Config) (c : Context) (message : Message) :
    Context × Option Err :=
  let sessionName :=
    if message.SessionName = "" ∨ message.SessionName = defaultShortName then
      cfg.DefaultSessionName
    else message.SessionName
  match storeGet c sessionName with
  | (c, _, some err) => (c, some err)
  | (c, session, none) =>
    let session : Session :=
      match message.Options with
      | none => { session with Options := cfg.DefaultOption }
      | some o => { session with Options := o }
    let session : Session :=
      { session with Values := mapSet session.Values message.Key message.Value }
    Save lib (putSession c sessionName session) sessionName session

/-- The function `DeleteSession`. -/
def DeleteSession (lib : Lib) (cfg : Config) (c : Context) (sessionName : String) :
    Context × Option Err :=
  let sessionName :=
    if sessionName = "" ∨ sessionName = defaultShortName then cfg.DefaultSessionName
    else sessionName
  match storeGet c sessionName with
  | (c, _, some err) => (c, some err)
  | (c, session, none) =>
    let session : Session :=
      { session with
        Options := { Path := "/", Domain := "", MaxAge := -1, Secure := false, HttpOnly := true } }
    Save lib (putSession c sessionName session) sessionName session

/-- The function `SetSessionFlash`; `none` is a panic inside `AddFlash`. -/
def SetSessionFlash (lib : Lib) (cfg : Config) (c : Context) (flash : Flash) :
    Option (Context × Option Err) :=
  let sessionName :=
    if flash.SessionName = "" ∨ flash.SessionName = defaultShortName then
      cfg.DefaultFlashSessionName
    else flash.SessionName
  match storeGet c sessionName with
  | (c, _, some err) => some (c, some err)
  | (c, session, none) =>
    match AddFlash session flash.Flash sessionName with
    | none => none
    | some session => some (Save lib (putSession c sessionName session) sessionName session)

/-- The function `SetFlash`. -/
def SetFlash (lib : Lib) (cfg : Config) (c : Context) (flash : Val) :
    Option (Context × Option Err) :=
  SetSessionFlash lib cfg c { Flash := flash, SessionName := cfg.DefaultFlashSessionName }

/-- The function `GetSessionFlashes`; the Go nil slice is the empty list and
`none` is a panic inside `Flashes`. -/
def GetSessionFlashes (lib : Lib) (cfg : Config) (c : Context) (sessionName : String) :
    Option (Context × List Val) :=
  let sessionName :=
    if sessionName = "" ∨ sessionName = defaultShortName then cfg.DefaultFlashSessionName
    else sessionName
  match storeGet c sessionName with
  | (c, _, some _) => some (c, [])
  | (c, session, none) =>
    match Flashes session sessionName with
    | none => none
    | some (session, flashes) =>
      let c := (DeleteSession lib cfg (putSession c sessionName session) sessionName).1
      some (c, flashes)

/-- The function `GetFlashes`. -/
def GetFlashes (lib : Lib) (cfg : Config) (c : Context) : Option (Context × List Val) :=
  GetSessionFlashes lib cfg c cfg.DefaultFlashSessionName

/-- The function `GetSessionValue`. -/
def GetSessionValue (cfg : Config) (c : Context) (sessionName : String) (key : Scalar) :
    Context × Val × Option Err :=
  let sessionName := if sessionName = "" then cfg.DefaultSessionName else sessionName
  match storeGet c sessionName with
  | (c, _, some err) => (c, Val.nil, some err)
  | (c, session, none) => (c, session.Values.index key, none)

/-- The function `DeleteSessionValue`. -/
def DeleteSessionValue (cfg : Config) (c : Context) (sessionName : String) (key : Scalar) :
    Context × Option Err :=
  let sessionName := if sessionName = "" then cfg.DefaultSessionName else sessionName
  match storeGet c sessionName with
  | (c, _, some err) => (c, some err)
  | (c, session, none) =>
    (putSession c sessionName { session with Values := mapDelete session.Values key }, none)

/-- The function `Delete`. -/
def Delete (cfg : Config) (c : Context) (key : Scalar) : Context × Option Err :=
  DeleteSessionValue cfg c cfg.DefaultSessionName key

/-- The function `GetDefaultSessionValue`. -/
def GetDefaultSessionValue (cfg : Config) (c : Context) (key : Scalar) :
    Context × Val × Option Err :=
  GetSessionValue cfg c cfg.DefaultSessionName key

/-- The function `GetString`. -/
def GetString (cfg : Config) (c : Context) (key : Scalar) : Context × String × Option Err :=
  match GetDefaultSessionValue cfg c key with
  | (c, _, some err) => (c, "", some err)
  | (c, valueInterface, none) =>
    match valueInterface with
    | .scalar (.str value) => (c, value, none)
    | _ => (c, "", some "convert session value to string failed")

/-- The function `GetInt`. -/
def GetInt (cfg : Config) (c : Context) (key : Scalar) : Context × Int × Option Err :=
  match GetDefaultSessionValue cfg c key with
  | (c, _, some err) => (c, 0, some err)
  | (c, valueInterface, none) =>
    match valueInterface with
    | .scalar (.int value) => (c, value, none)
    | _ => (c, 0, some "convert session value to string failed")

/-- The function `Set`. -/
def Set (lib : Lib) (cfg : Config) (c : Context) (key : Scalar) (value : Val) :
    Context × Option Err :=
  SetMessage lib cfg c { Key := key, Value := value }

/-- The function `GetTokenString`. -/
def GetTokenString (cfg : Config) (c : Context) : Context × String × Option Err :=
  match GetSessionValue cfg c cfg.JwtTokenName (.str cfg.JwtTokenName) with
  | (c, _, some err) => (c, "", some err)
  | (c, valueInterface, none) =>
    match valueInterface with
    | .scalar (.str tokenString) => (c, tokenString, none)
    | _ => (c, "", some "failed get token string")

/-- The function `DeleteTokenSession`. -/
def DeleteTokenSession (lib : Lib) (cfg : Config) (c : Context) : Context × Option Err :=
  DeleteSession lib cfg c cfg.JwtTokenName

/-- The function `DeleteNormalSession`. -/
def DeleteNormalSession (lib : Lib) (cfg : Config) (c : Context) : Context :=
  let c := (DeleteSession lib cfg c cfg.DefaultSessionName).1
  (DeleteSession lib cfg c cfg.DefaultFlashSessionName).1

/-- The function `DeleteAllSession`. -/
def DeleteAllSession (lib : Lib) (cfg : Config) (c : Context) : Context :=
  let c := (DeleteSession lib cfg c cfg.JwtTokenName).1
  DeleteNormalSession lib cfg c

/-! ## Package `session`: tokens -/

/-- Lines 367 to 386 of `ValidateJWTToken`: put the token string into the
`Authorization` header, parse the token from the request and take the
username from its claims. -/
def validateTokenString (lib : Lib) (cfg : Config) (now : Int) (c : Context)
    (tokenString : String) : Context × String × Option Err :=
  let username := ""
  let c := { c with Authorization := tokenString }
  match lib.ParseFromRequest cfg.SecretKey now c.Authorization with
  | .error err => (c, username, some err)
  | .ok token =>
    if !token.Valid then (c, username, some "token not valid")
    else
      match token.Claims with
      | .mapClaims claims =>
        match mapGet claims "sub" with
        | some (.scalar (.str _username)) => (c, _username, none)
        | _ => (c, username, some "failed to fetch username from token")
      | .other => (c, username, some "failed to fetch username from token")

/-- The function `ValidateJWTToken`; `now` is the clock of the token parser,
in Unix seconds. -/
def ValidateJWTToken (lib : Lib) (cfg : Config) (now : Int) (c : Context) :
    Context × String × Option Err :=
  let username := ""
  let tokenString := c.Authorization
  if tokenString = "" then
    match GetTokenString cfg c with
    | (c, _, some err) => (c, username, some err)
    | (c, tokenString, none) => validateTokenString lib cfg now c tokenString
  else validateTokenString lib cfg now c tokenString

/-! ## Package `model` of the example -/

/-- The cookie options `DeleteSession` sets. -/
def deleteOptions : Options :=
  { Path := "/", Domain := "", MaxAge := -1, Secure := false, HttpOnly := true }

/-- The calls `SetSessionFlash(c, Flash{v, sessionName})` for the values of a
list, in order, whatever error each call returns; `none` is a panic. -/
def setSessionFlashes (lib : Lib) (cfg : Config) (c : Context) (sessionName : String) :
    List Val → Option Context
  | [] => some c
  | v :: rest =>
    match SetSessionFlash lib cfg c { Flash := v, SessionName := sessionName } with
    | none => none
    | some (c1, _) => setSessionFlashes lib cfg c1 sessionName rest

/-- The flashes a session holds under a key: the empty list when the key is
absent, nothing when the value under the key is not a `[]interface{}`. -/
def flashesOf (s : Session) (key : String) : Option (List Val) :=
  match mapGet s.Values (.str key) with
  | none => some []
  | some (.slice fl) => some fl
  | some (.scalar _) => none

/-- The store returns the session of this name without error and the session
holds these flashes under its name. -/
def HoldsFlashes (c : Context) (name : String) (fl : List Val) : Prop :=
  (storeGet c name).2.2 = none ∧ flashesOf (storeGet c name).2.1 name = some fl

/-! ## What is assumed of the token library -/

/-- A toy library instance for evaluating the model on concrete requests:
every value map can be encoded, the token of a claim set is its subject, as
JSON carries it, after the marker `jwt:`, and parsing accepts the headers that
start with the marker, reading the subject back, and rejects the others. -/
def demoLib : Lib :=
  { encodeError := fun _ _ => none
    SignedString := fun _ claims =>
      match mapGet claims "sub" with
      | some (.str u) => "jwt:" ++ jsonString u
      | _ => "jwt:"
    ParseFromRequest := fun _ _ header =>
      if header.data.take 4 = ['j', 'w', 't', ':'] then
        .ok { Valid := true
              Claims := .mapClaims [("sub", Val.str (String.mk (header.data.drop 4)))] }
      else .error "token contains an invalid number of segments" }

/-- A request without `Authorization` header and without cookies. -/
def emptyContext : Context :=
  { Authorization := "", incoming := [], registry := [], written := [] }

/-- The request of `SomeCookiesHandler` after `Set(c, "hello", "world")`. -/
def helloContext : Context :=
  (Set demoLib initialConfig emptyContext (.str "hello") (Val.str "world")).1

/-! ## Lemmas on maps and on the store -/

theorem goEq_string (a b : String) : GoEq.goEq a b = decide (a = b) := rfl

theorem goEq_string_self (a : String) : GoEq.goEq a a = true := by
  simp [goEq_string]

theorem goEq_str (a b : String) : GoEq.goEq (Scalar.str a) (Scalar.str b) = decide (a = b) := by
  show Scalar.goEq _ _ = _
  simp [Scalar.goEq]

theorem goEq_str_self (a : String) : GoEq.goEq (Scalar.str a) (Scalar.str a) = true := by
  simp [goEq_str]

theorem goEq_of_ne {κ : Type} [GoEq κ] (a b : κ) (h : a ≠ b) : GoEq.goEq a b = false := by
  cases hg : GoEq.goEq a b with
  | false => rfl
  | true => exact absurd (GoEq.eq_of_goEq a b hg) h

theorem mapGet_mapDelete_self {κ α : Type} [GoEq κ] (m : List (κ × α)) (k : κ) :
    mapGet (mapDelete m k) k = none := by
  induction m with
  | nil => rfl
  | cons p rest ih =>
    obtain ⟨k0, v⟩ := p
    cases h : GoEq.goEq k0 k with
    | true => simp [mapDelete, h, ih]
    | false => simp [mapDelete, mapGet, h, ih]

theorem mapGet_mapDelete_ne {κ α : Type} [GoEq κ] (m : List (κ × α)) (k k1 : κ)
    (hne : k ≠ k1) : mapGet (mapDelete m k) k1 = mapGet m k1 := by
  induction m with
  | nil => rfl
  | cons p rest ih =>
    obtain ⟨k0, v⟩ := p
    cases h : GoEq.goEq k0 k with
    | true =>
      have h0 : k0 = k := GoEq.eq_of_goEq k0 k h
      have h1 : GoEq.goEq k0 k1 = false := goEq_of_ne k0 k1 (by rw [h0]; exact hne)
      simp [mapDelete, mapGet, h, h1, ih]
    | false =>
      cases h1 : GoEq.goEq k0 k1 with
      | true => simp [mapDelete, mapGet, h, h1]
      | false => simp [mapDelete, mapGet, h, h1, ih]

theorem mapGet_mapSet_self {κ α : Type} [GoEq κ] (m : List (κ × α)) (k : κ) (v : α)
    (hk : GoEq.goEq k k = true) : mapGet (mapSet m k v) k = some v := by
  simp [mapSet, mapGet, hk]

theorem mapGet_mapSet_ne {κ α : Type} [GoEq κ] (m : List (κ × α)) (k k1 : κ) (v : α)
    (hne : k ≠ k1) : mapGet (mapSet m k v) k1 = mapGet m k1 := by
  simp [mapSet, mapGet, goEq_of_ne k k1 hne, mapGet_mapDelete_ne m k k1 hne]

/-- A registered session is what `store.Get` returns, and the context is unchanged. -/
theorem storeGet_of_registered (c : Context) (name : String) (r : Session × Option Err)
    (h : mapGet c.registry name = some r) : storeGet c name = (c, r) := by
  simp [storeGet, h]

/-- After `store.Get` the session is registered under its name. -/
theorem storeGet_registered (c : Context) (name : String) :
    mapGet (storeGet c name).1.registry name = some (storeGet c name).2 := by
  unfold storeGet
  cases h : mapGet c.registry name with
  | some r => simp [h]
  | none => simp [mapGet_mapSet_self _ _ _ (goEq_string_self name)]

/-- A second `store.Get` of the same name returns the same session and error. -/
theorem storeGet_again (c : Context) (name : String) :
    storeGet (storeGet c name).1 name = storeGet c name :=
  storeGet_of_registered _ _ _ (storeGet_registered c name)

/-- After a session was written back, `store.Get` returns it. -/
theorem storeGet_putSession (c : Context) (name : String) (s : Session) :
    storeGet (putSession c name s) name = (putSession c name s, s, none) :=
  storeGet_of_registered _ _ _ (by
    simp [putSession, mapGet_mapSet_self _ _ _ (goEq_string_self name)])

/-- Saving does not touch the registry. -/
theorem Save_registry (lib : Lib) (c : Context) (name : String) (s : Session) :
    (Save lib c name s).1.registry = c.registry := by
  unfold Save
  cases lib.encodeError name s.Values <;> rfl

/-- After a session was written back and saved, `store.Get` returns it. -/
theorem storeGet_Save_putSession (lib : Lib) (c : Context) (name : String) (s : Session) :
    storeGet (Save lib (putSession c name s) name s).1 name =
      ((Save lib (putSession c name s) name s).1, s, none) :=
  storeGet_of_registered _ _ _ (by
    rw [Save_registry]
    simp [putSession, mapGet_mapSet_self _ _ _ (goEq_string_self name)])

/-- What `SetMessage` does when the store returns the session without error. -/
theorem SetMessage_of_get (lib : Lib) (cfg : Config) (c c1 : Context) (message : Message)
    (name : String) (s : Session)
    (hname : name = if message.SessionName = "" ∨ message.SessionName = defaultShortName then
      cfg.DefaultSessionName else message.SessionName)
    (hget : storeGet c name = (c1, s, none)) :
    SetMessage lib cfg c message =
      Save lib
        (putSession c1 name
          { Values := mapSet s.Values message.Key message.Value
            Options := (match message.Options with
              | none => cfg.DefaultOption
              | some o => o)
            IsNew := s.IsNew })
        name
        { Values := mapSet s.Values message.Key message.Value
          Options := (match message.Options with
            | none => cfg.DefaultOption
            | some o => o)
          IsNew := s.IsNew } := by
  subst hname
  unfold SetMessage
  simp only [hget]
  cases message.Options <;> rfl

/-- The name `GetSessionValue` looks up for the default session name is that name. -/
theorem GetSessionValue_default_name (cfg : Config) :
    (if cfg.DefaultSessionName = "" then cfg.DefaultSessionName else cfg.DefaultSessionName) =
      cfg.DefaultSessionName := by
  split <;> rfl

/-- What `GetSessionValue` returns for a name whose session is registered
without error. -/
theorem GetSessionValue_of_get (cfg : Config) (c c1 : Context) (sessionName name : String)
    (key : Scalar) (s : Session)
    (hname : name = if sessionName = "" then cfg.DefaultSessionName else sessionName)
    (hget : storeGet c name = (c1, s, none)) :
    GetSessionValue cfg c sessionName key = (c1, s.Values.index key, none) := by
  subst hname
  unfold GetSessionValue
  simp only [hget]

/-- The state after `Set` on a request whose default session the store
returns without error. -/
theorem Set_of_get (lib : Lib) (cfg : Config) (c c1 : Context) (k : Scalar) (v : Val)
    (s : Session) (hget : storeGet c cfg.DefaultSessionName = (c1, s, none)) :
    Set lib cfg c k v =
      Save lib
        (putSession c1 cfg.DefaultSessionName
          { Values := mapSet s.Values k v, Options := cfg.DefaultOption, IsNew := s.IsNew })
        cfg.DefaultSessionName
        { Values := mapSet s.Values k v, Options := cfg.DefaultOption, IsNew := s.IsNew } := by
  unfold Set
  rw [SetMessage_of_get lib cfg c c1 _ cfg.DefaultSessionName s (by simp) hget]

/-- The default session value read right after `Set`. -/
theorem GetDefaultSessionValue_Set (lib : Lib) (cfg : Config) (c : Context) (k : Scalar)
    (v : Val) (hk : GoEq.goEq k k = true)
    (hget : (storeGet c cfg.DefaultSessionName).2.2 = none) :
    (GetDefaultSessionValue cfg (Set lib cfg c k v).1 k).2 = (v, none) := by
  rcases h : storeGet c cfg.DefaultSessionName with ⟨c1, s, e⟩
  rw [h] at hget
  simp only at hget
  subst hget
  rw [Set_of_get lib cfg c c1 k v s h]
  unfold GetDefaultSessionValue
  rw [GetSessionValue_of_get cfg _ _ cfg.DefaultSessionName cfg.DefaultSessionName k _
    (GetSessionValue_default_name cfg).symm (storeGet_Save_putSession lib c1 _ _)]
  simp [Values.index, mapGet_mapSet_self _ _ _ hk]

/-- With a non-empty `Authorization` header, `ValidateJWTToken` validates the
header value. -/
theorem ValidateJWTToken_of_header (lib : Lib) (cfg : Config) (now : Int) (c : Context)
    (h : c.Authorization ≠ "") :
    ValidateJWTToken lib cfg now c = validateTokenString lib cfg now c c.Authorization := by
  simp [ValidateJWTToken, h]

/-- With an empty `Authorization` header, `ValidateJWTToken` validates the
string `GetTokenString` returns, or returns its error. -/
theorem ValidateJWTToken_of_session (lib : Lib) (cfg : Config) (now : Int) (c : Context)
    (h : c.Authorization = "") :
    ValidateJWTToken lib cfg now c =
      match GetTokenString cfg c with
      | (c, _, some err) => (c, "", some err)
      | (c, tokenString, none) => validateTokenString lib cfg now c tokenString := by
  simp [ValidateJWTToken, h]

/-- The username and error of `validateTokenString` do not depend on the
context. -/
theorem validateTokenString_context (lib : Lib) (cfg : Config) (now : Int) (c c1 : Context)
    (t : String) :
    (validateTokenString lib cfg now c t).2 = (validateTokenString lib cfg now c1 t).2 := by
  unfold validateTokenString
  simp only
  cases lib.ParseFromRequest cfg.SecretKey now t with
  | error e => rfl
  | ok token =>
    obtain ⟨valid, claims⟩ := token
    cases valid
    · rfl
    · cases claims with
      | other => rfl
      | mapClaims m =>
        rcases hm : mapGet m "sub" with _ | ⟨⟨_ | u | n | b | f⟩ | xs⟩ <;> simp [hm]

/-- An error of `validateTokenString` comes with the empty username. -/
theorem validateTokenString_error (lib : Lib) (cfg : Config) (now : Int) (c : Context)
    (t : String) (h : (validateTokenString lib cfg now c t).2.2 ≠ none) :
    (validateTokenString lib cfg now c t).2.1 = "" := by
  unfold validateTokenString at h ⊢
  simp only at h ⊢
  cases hp : lib.ParseFromRequest cfg.SecretKey now t with
  | error e => rfl
  | ok token =>
    obtain ⟨valid, claims⟩ := token
    rw [hp] at h
    cases valid
    · rfl
    · cases claims with
      | other => rfl
      | mapClaims m =>
        rcases hm : mapGet m "sub" with _ | ⟨⟨_ | u | n | b | f⟩ | xs⟩ <;> simp [hm] at h ⊢

/-- The result of `validateTokenString` on a token that parses and verifies
but has no string under `sub`. -/
theorem validateTokenString_no_sub (lib : Lib) (cfg : Config) (now : Int) (c : Context)
    (t : String) (claims : Claims)
    (hp : lib.ParseFromRequest cfg.SecretKey now t = .ok ⟨true, claims⟩)
    (hsub : ∀ m u, claims = .mapClaims m → mapGet m "sub" ≠ some (Val.str u)) :
    (validateTokenString lib cfg now c t).2 = ("", some "failed to fetch username from token") := by
  unfold validateTokenString
  simp only [hp]
  cases claims with
  | other => rfl
  | mapClaims m =>
    rcases hm : mapGet m "sub" with _ | ⟨⟨_ | u | n | b | f⟩ | xs⟩ <;> simp [hm]
    exact absurd hm (hsub m u rfl)

/-- Once the `sync.Once` has run, steps neither construct a store nor change
the variable `store`. -/
theorem runSteps_of_once (steps : List Step) (p : Package) (h : p.once = true) :
    (runSteps p steps).store = p.store ∧ (runSteps p steps).once = true ∧
      constructions p steps = 0 := by
  induction steps generalizing p with
  | nil => exact ⟨rfl, h, rfl⟩
  | cons st rest ih =>
    cases st with
    | callNewStore =>
      have hn : NewStore p = p := by simp [NewStore, h]
      have := ih p h
      simp only [runSteps, List.foldl_cons, Step.run, constructions, hn,
        NewStore.constructs, h] at this ⊢
      simpa using this
    | assign cfg =>
      have := ih { p with cfg := cfg } h
      simpa only [runSteps, List.foldl_cons, Step.run, constructions] using this

/-- Assignments to the configuration construct no store and leave the
`sync.Once` and the variable `store` alone. -/
theorem runSteps_assign (cfgs : List Config) (p : Package) :
    (runSteps p (cfgs.map Step.assign)).store = p.store ∧
      (runSteps p (cfgs.map Step.assign)).once = p.once ∧
      constructions p (cfgs.map Step.assign) = 0 := by
  induction cfgs generalizing p with
  | nil => exact ⟨rfl, rfl, rfl⟩
  | cons cfg rest ih =>
    have := ih { p with cfg := cfg }
    simpa only [List.map_cons, runSteps, List.foldl_cons, Step.run, constructions] using this

/-- Running a sequence of steps in two parts. -/
theorem runSteps_append (p : Package) (xs ys : List Step) :
    runSteps p (xs ++ ys) = runSteps (runSteps p xs) ys := by
  simp [runSteps, List.foldl_append]

/-- Counting constructions in two parts. -/
theorem constructions_append (xs ys : List Step) (p : Package) :
    constructions p (xs ++ ys) = constructions p xs + constructions (runSteps p xs) ys := by
  induction xs generalizing p with
  | nil => simp [constructions, runSteps]
  | cons st rest ih =>
    cases st with
    | callNewStore =>
      have h1 := ih (NewStore p)
      have h2 : constructions p (Step.callNewStore :: rest ++ ys)
          = (if NewStore.constructs p then 1 else 0) + constructions (NewStore p) (rest ++ ys) :=
        rfl
      have h3 : runSteps p (Step.callNewStore :: rest) = runSteps (NewStore p) rest := rfl
      rw [h2, h1, h3]
      simp only [constructions]
      omega
    | assign cfg =>
      have h1 := ih { p with cfg := cfg }
      have h2 : constructions p (Step.assign cfg :: rest ++ ys)
          = constructions { p with cfg := cfg } (rest ++ ys) := rfl
      have h3 : runSteps p (Step.assign cfg :: rest) = runSteps { p with cfg := cfg } rest := rfl
      rw [h2, h1, h3]
      simp only [constructions]

/-- Along any sequence of steps `newStore` is executed at most once. -/
theorem constructions_le_one (steps : List Step) (p : Package) : constructions p steps ≤ 1 := by
  induction steps generalizing p with
  | nil => simp [constructions]
  | cons st rest ih =>
    cases st with
    | callNewStore =>
      by_cases h : p.once = true
      · have := (runSteps_of_once (.callNewStore :: rest) p h).2.2
        omega
      · have hn : (NewStore p).once = true := by simp [NewStore, h]
        have := (runSteps_of_once rest (NewStore p) hn).2.2
        simp only [constructions, this]
        split <;> omega
    | assign cfg => simpa only [constructions] using ih { p with cfg := cfg }

/-- What `store.Get` returns depends on the registry and the request cookies
only. -/
theorem storeGet_congr (c c1 : Context) (m : String) (hr : c1.registry = c.registry)
    (hi : c1.incoming = c.incoming) : (storeGet c1 m).2 = (storeGet c m).2 := by
  unfold storeGet
  rw [hr]
  cases mapGet c.registry m with
  | some r => rfl
  | none => simp [storeNew, hi]

/-- Fetching one session does not change what `store.Get` returns for any name. -/
theorem storeGet_storeGet (c : Context) (n m : String) :
    (storeGet (storeGet c n).1 m).2 = (storeGet c m).2 := by
  by_cases hmn : m = n
  · subst hmn
    rw [storeGet_again]
  · cases hn : mapGet c.registry n with
    | some r => rw [storeGet_of_registered c n r hn]
    | none =>
      have hc : (storeGet c n).1 = { c with registry := mapSet c.registry n (storeNew c n) } := by
        simp [storeGet, hn]
      rw [hc]
      unfold storeGet
      simp only [mapGet_mapSet_ne c.registry n m _ (Ne.symm hmn)]
      cases mapGet c.registry m with
      | some r => rfl
      | none => rfl

/-- Writing a session back does not change what `store.Get` returns for other
names. -/
theorem storeGet_putSession_ne (c : Context) (n m : String) (s : Session) (hmn : m ≠ n) :
    (storeGet (putSession c n s) m).2 = (storeGet c m).2 := by
  unfold storeGet putSession
  simp only [mapGet_mapSet_ne c.registry n m _ (Ne.symm hmn)]
  cases mapGet c.registry m with
  | some r => rfl
  | none => rfl

/-- Saving does not change what `store.Get` returns. -/
theorem storeGet_Save (lib : Lib) (c : Context) (n m : String) (s : Session) :
    (storeGet (Save lib c n s).1 m).2 = (storeGet c m).2 := by
  apply storeGet_congr
  · exact Save_registry lib c n s
  · unfold Save
    cases lib.encodeError n s.Values <;> rfl

/-- The state after `DeleteSession` when the store returns the session without
error. -/
theorem DeleteSession_of_get (lib : Lib) (cfg : Config) (c c1 : Context)
    (sessionName name : String) (s : Session)
    (hname : name = if sessionName = "" ∨ sessionName = defaultShortName then
      cfg.DefaultSessionName else sessionName)
    (hget : storeGet c name = (c1, s, none)) :
    DeleteSession lib cfg c sessionName =
      Save lib (putSession c1 name { s with Options := deleteOptions }) name
        { s with Options := deleteOptions } := by
  subst hname
  unfold DeleteSession
  simp only [hget]
  rfl

/-- The state after `DeleteSession` when the store returns an error. -/
theorem DeleteSession_of_error (lib : Lib) (cfg : Config) (c c1 : Context)
    (sessionName name : String) (s : Session) (err : Err)
    (hname : name = if sessionName = "" ∨ sessionName = defaultShortName then
      cfg.DefaultSessionName else sessionName)
    (hget : storeGet c name = (c1, s, some err)) :
    DeleteSession lib cfg c sessionName = (c1, some err) := by
  subst hname
  unfold DeleteSession
  simp only [hget]

/-- The call `DeleteSession` changes no session values and no error of the
store, keeps the options it has set before, and keeps what was written to the
response. -/
theorem DeleteSession_frame (lib : Lib) (cfg : Config) (c : Context) (sessionName m : String) :
    (storeGet (DeleteSession lib cfg c sessionName).1 m).2.2 = (storeGet c m).2.2 ∧
    (storeGet (DeleteSession lib cfg c sessionName).1 m).2.1.Values
      = (storeGet c m).2.1.Values ∧
    ((storeGet c m).2.1.Options = deleteOptions →
      (storeGet (DeleteSession lib cfg c sessionName).1 m).2.1.Options = deleteOptions) ∧
    (∀ sc, sc ∈ c.written → sc ∈ (DeleteSession lib cfg c sessionName).1.written) := by
  rcases h : storeGet c (if sessionName = "" ∨ sessionName = defaultShortName then
    cfg.DefaultSessionName else sessionName) with ⟨c1, s, e⟩
  have hc1 : c1 = (storeGet c (if sessionName = "" ∨ sessionName = defaultShortName then
    cfg.DefaultSessionName else sessionName)).1 := by rw [h]
  have hw1 : c1.written = c.written := by
    rw [hc1]
    unfold storeGet
    cases mapGet c.registry _ <;> rfl
  have hsg : (storeGet c1 m).2 = (storeGet c m).2 := by
    rw [hc1]
    exact storeGet_storeGet c _ m
  cases e with
  | some err =>
    rw [DeleteSession_of_error lib cfg c c1 sessionName _ s err rfl h]
    simp only
    rw [hsg]
    refine ⟨rfl, rfl, fun h => h, ?_⟩
    intro sc hsc
    rw [hw1]
    exact hsc
  | none =>
    rw [DeleteSession_of_get lib cfg c c1 sessionName _ s rfl h]
    rw [storeGet_Save]
    have hwr : ∀ sc, sc ∈ c.written →
        sc ∈ (Save lib (putSession c1 (if sessionName = "" ∨ sessionName = defaultShortName then
          cfg.DefaultSessionName else sessionName) { s with Options := deleteOptions })
          (if sessionName = "" ∨ sessionName = defaultShortName then
          cfg.DefaultSessionName else sessionName) { s with Options := deleteOptions }).1.written := by
      intro sc hsc
      unfold Save
      cases lib.encodeError _ _ with
      | some e => simpa [putSession, hw1] using hsc
      | none => simp [putSession, hw1, hsc]
    by_cases hm : m = (if sessionName = "" ∨ sessionName = defaultShortName then
        cfg.DefaultSessionName else sessionName)
    · rw [hm, storeGet_putSession, h]
      exact ⟨rfl, rfl, fun _ => rfl, hwr⟩
    · rw [storeGet_putSession_ne _ _ _ _ hm, hsg]
      exact ⟨rfl, rfl, fun h => h, hwr⟩

/-- When the store returns the session without error and can encode it,
`DeleteSession` writes it to the response with the deleting options, and the
session has these options afterwards. -/
theorem DeleteSession_saves (lib : Lib) (cfg : Config) (c : Context) (sessionName name : String)
    (hname : name = if sessionName = "" ∨ sessionName = defaultShortName then
      cfg.DefaultSessionName else sessionName)
    (hget : (storeGet c name).2.2 = none)
    (hsave : lib.encodeError name (storeGet c name).2.1.Values = none) :
    (⟨name, (storeGet c name).2.1.Values, deleteOptions⟩ : SetCookie)
      ∈ (DeleteSession lib cfg c sessionName).1.written ∧
    (storeGet (DeleteSession lib cfg c sessionName).1 name).2.1.Options = deleteOptions ∧
    (DeleteSession lib cfg c sessionName).2 = none := by
  rcases h : storeGet c name with ⟨c1, s, e⟩
  rw [h] at hget hsave
  simp only at hget hsave
  subst hget
  rw [DeleteSession_of_get lib cfg c c1 sessionName name s hname h, storeGet_Save,
    storeGet_putSession]
  refine ⟨?_, rfl, ?_⟩
  · simp [Save, hsave]
  · simp [Save, hsave]

/-- The method `AddFlash` on a session that holds flashes under the key. -/
theorem AddFlash_of_flashesOf (sess : Session) (v : Val) (key : String) (fl : List Val)
    (h : flashesOf sess key = some fl) :
    AddFlash sess v key =
      some { sess with Values := mapSet sess.Values (.str key) (.slice (fl ++ [v])) } := by
  unfold flashesOf at h
  unfold AddFlash
  rcases hm : mapGet sess.Values (Scalar.str key) with _ | ⟨a | fl1⟩
  · rw [hm] at h
    simp only [Option.some.injEq] at h
    subst h
    rfl
  · rw [hm] at h
    simp at h
  · rw [hm] at h
    simp only [Option.some.injEq] at h
    subst h
    rfl

/-- The method `Flashes` on a session that holds flashes under the key. -/
theorem Flashes_of_flashesOf (sess : Session) (key : String) (fl : List Val)
    (h : flashesOf sess key = some fl) :
    ∃ sess1 : Session, Flashes sess key = some (sess1, fl) ∧
      mapGet sess1.Values (.str key) = none := by
  unfold flashesOf at h
  unfold Flashes
  rcases hm : mapGet sess.Values (Scalar.str key) with _ | ⟨a | fl1⟩
  · rw [hm] at h
    simp only [Option.some.injEq] at h
    subst h
    exact ⟨sess, rfl, hm⟩
  · rw [hm] at h
    simp at h
  · rw [hm] at h
    simp only [Option.some.injEq] at h
    subst h
    exact ⟨_, rfl, mapGet_mapDelete_self _ _⟩

/-- The state after `SetSessionFlash` when the store returns the session
without error and `AddFlash` does not panic. -/
theorem SetSessionFlash_of_get (lib : Lib) (cfg : Config) (c c0 : Context)
    (sessionName name : String) (v : Val) (sess sess1 : Session)
    (hname : name = if sessionName = "" ∨ sessionName = defaultShortName then
      cfg.DefaultFlashSessionName else sessionName)
    (hget : storeGet c name = (c0, sess, none)) (hadd : AddFlash sess v name = some sess1) :
    SetSessionFlash lib cfg c { Flash := v, SessionName := sessionName } =
      some (Save lib (putSession c0 name sess1) name sess1) := by
  subst hname
  unfold SetSessionFlash
  simp only [hget, hadd]

/-- The state after `GetSessionFlashes` when the store returns the session
without error and `Flashes` does not panic. -/
theorem GetSessionFlashes_of_get (lib : Lib) (cfg : Config) (c c0 : Context)
    (sessionName name : String) (fl : List Val) (sess sess1 : Session)
    (hname : name = if sessionName = "" ∨ sessionName = defaultShortName then
      cfg.DefaultFlashSessionName else sessionName)
    (hget : storeGet c name = (c0, sess, none)) (hfl : Flashes sess name = some (sess1, fl)) :
    GetSessionFlashes lib cfg c sessionName =
      some ((DeleteSession lib cfg (putSession c0 name sess1) name).1, fl) := by
  subst hname
  unfold GetSessionFlashes
  simp only [hget, hfl]

/-- Adding a flash to a session that holds flashes. -/
theorem SetSessionFlash_holds (lib : Lib) (cfg : Config) (c : Context) (sessionName name : String)
    (v : Val) (fl : List Val)
    (hname : name = if sessionName = "" ∨ sessionName = defaultShortName then
      cfg.DefaultFlashSessionName else sessionName)
    (h : HoldsFlashes c name fl) :
    ∃ c1 e, SetSessionFlash lib cfg c { Flash := v, SessionName := sessionName } = some (c1, e) ∧
      HoldsFlashes c1 name (fl ++ [v]) := by
  obtain ⟨hget, hfl⟩ := h
  rcases hs : storeGet c name with ⟨c0, sess, e0⟩
  rw [hs] at hget hfl
  simp only at hget hfl
  subst hget
  have hadd := AddFlash_of_flashesOf sess v name fl hfl
  generalize hsess1 : ({ sess with
    Values := mapSet sess.Values (.str name) (.slice (fl ++ [v])) } : Session) = sess1 at hadd
  have hval : mapGet sess1.Values (.str name) = some (.slice (fl ++ [v])) := by
    rw [← hsess1]
    exact mapGet_mapSet_self _ _ _ (goEq_str_self name)
  have hres := SetSessionFlash_of_get lib cfg c c0 sessionName name v sess sess1 hname hs hadd
  refine ⟨(Save lib (putSession c0 name sess1) name sess1).1,
    (Save lib (putSession c0 name sess1) name sess1).2, hres, ?_⟩
  unfold HoldsFlashes
  rw [storeGet_Save, storeGet_putSession]
  refine ⟨rfl, ?_⟩
  simp only [flashesOf, hval]

/-- Reading the flashes of a session that holds flashes: they are returned and
the session holds none afterwards. -/
theorem GetSessionFlashes_holds (lib : Lib) (cfg : Config) (c : Context)
    (sessionName name : String) (fl : List Val)
    (hname : name = if sessionName = "" ∨ sessionName = defaultShortName then
      cfg.DefaultFlashSessionName else sessionName)
    (h : HoldsFlashes c name fl) :
    ∃ c2, GetSessionFlashes lib cfg c sessionName = some (c2, fl) ∧ HoldsFlashes c2 name [] := by
  obtain ⟨hget, hfl⟩ := h
  rcases hs : storeGet c name with ⟨c0, sess, e0⟩
  rw [hs] at hget hfl
  simp only at hget hfl
  subst hget
  obtain ⟨sess1, hflashes, hgone⟩ := Flashes_of_flashesOf sess name fl hfl
  have hres := GetSessionFlashes_of_get lib cfg c c0 sessionName name fl sess sess1 hname hs
    hflashes
  have f := DeleteSession_frame lib cfg (putSession c0 name sess1) name name
  rw [storeGet_putSession] at f
  refine ⟨(DeleteSession lib cfg (putSession c0 name sess1) name).1, hres, ?_⟩
  unfold HoldsFlashes
  refine ⟨f.1, ?_⟩
  unfold flashesOf
  rw [f.2.1]
  simp only [hgone]

/-- Adding a list of flashes to a session that holds flashes. -/
theorem setSessionFlashes_holds (lib : Lib) (cfg : Config) (sessionName name : String)
    (hname : name = if sessionName = "" ∨ sessionName = defaultShortName then
      cfg.DefaultFlashSessionName else sessionName)
    (vs : List Val) (c : Context) (fl : List Val) (h : HoldsFlashes c name fl) :
    ∃ c1, setSessionFlashes lib cfg c sessionName vs = some c1 ∧
      HoldsFlashes c1 name (fl ++ vs) := by
  induction vs generalizing c fl with
  | nil => exact ⟨c, rfl, by simpa using h⟩
  | cons v rest ih =>
    obtain ⟨c1, e, hset, hholds⟩ := SetSessionFlash_holds lib cfg c sessionName name v fl hname h
    obtain ⟨c2, hrest, hholds2⟩ := ih c1 (fl ++ [v]) hholds
    refine ⟨c2, ?_, by simpa using hholds2⟩
    simp only [setSessionFlashes, hset]
    exact hrest

/-- Once the `sync.Once` has run, every caller finds the store that is there. -/
theorem observations_of_once (steps : List Step) (p : Package) (h : p.once = true) :
    ∀ o ∈ observations p steps, o = p.store := by
  induction steps generalizing p with
  | nil => intro o ho; simp [observations] at ho
  | cons st rest ih =>
    cases st with
    | callNewStore =>
      have hn : NewStore p = p := by simp [NewStore, h]
      intro o ho
      simp only [observations, hn, List.mem_cons] at ho
      rcases ho with ho | ho
      · exact ho
      · exact ih p h o ho
    | assign cfg =>
      intro o ho
      exact ih { p with cfg := cfg } h o ho

/-- Before the `sync.Once` has run, all callers to come find one and the same
store. -/
theorem observations_single (steps : List Step) (p : Package) (h : p.once = false) :
    ∃ st : CookieStore, ∀ o ∈ observations p steps, o = some st := by
  induction steps generalizing p with
  | nil => exact ⟨NewCookieStore "", by intro o ho; simp [observations] at ho⟩
  | cons st rest ih =>
    cases st with
    | callNewStore =>
      have hs : (NewStore p).store = some (NewCookieStore p.cfg.SecretKey) := by
        simp [NewStore, newStore, h]
      have ho1 : (NewStore p).once = true := by simp [NewStore, h]
      refine ⟨NewCookieStore p.cfg.SecretKey, ?_⟩
      intro o ho
      simp only [observations, List.mem_cons] at ho
      rcases ho with ho | ho
      · rw [ho, hs]
      · rw [observations_of_once rest (NewStore p) ho1 o ho, hs]
    | assign cfg =>
      obtain ⟨st, hst⟩ := ih { p with cfg := cfg } h
      exact ⟨st, fun o ho => hst o ho⟩

/-! ## The claims -/

/-- C1, the claim as stated fails: with the key `math.NaN()`, a `float64`, on
a request without cookies, `Set(c, k, "world")` returns the nil error and the
following `GetDefaultSessionValue(c, k)` returns the nil value with the nil
error, not `"world"`. -/
theorem C1_counterexample :
    (Set demoLib initialConfig emptyContext (.float .nan) (Val.str "world")).2 = none ∧
    (GetDefaultSessionValue initialConfig
      (Set demoLib initialConfig emptyContext (.float .nan) (Val.str "world")).1
      (.float .nan)).2 = (Val.nil, none) := by
  constructor <;> rfl

/-- C1 as amended. Set/get round trip for every key of a comparable type that
is equal to itself under Go's `==` (every such key but a floating-point NaN)
and every value: when the store returns the default session of the request
without error and can encode it with the new entry, `Set c k v` returns the
nil error and, right after it in the same request, `GetDefaultSessionValue c k`
returns `(v, nil)`; `GetString c k` returns `(s, nil)` when `v` is the string
`s` and `GetInt c k` returns `(n, nil)` when `v` is the int `n`. -/
theorem C1_set_get_round_trip (lib : Lib) (cfg : Config) (c : Context) (k : Scalar) (v : Val)
    (hk : Scalar.goEq k k = true)
    (hget : (storeGet c cfg.DefaultSessionName).2.2 = none)
    (hsave : lib.encodeError cfg.DefaultSessionName
      (mapSet (storeGet c cfg.DefaultSessionName).2.1.Values k v) = none) :
    (Set lib cfg c k v).2 = none ∧
    (GetDefaultSessionValue cfg (Set lib cfg c k v).1 k).2 = (v, none) ∧
    (∀ s : String, v = Val.str s → (GetString cfg (Set lib cfg c k v).1 k).2 = (s, none)) ∧
    (∀ n : Int, v = Val.int n → (GetInt cfg (Set lib cfg c k v).1 k).2 = (n, none)) := by
  have hread := GetDefaultSessionValue_Set lib cfg c k v hk hget
  refine ⟨?_, hread, ?_, ?_⟩
  · rcases h : storeGet c cfg.DefaultSessionName with ⟨c1, s, e⟩
    rw [h] at hget hsave
    simp only at hget hsave
    subst hget
    rw [Set_of_get lib cfg c c1 k v s h]
    simp [Save, hsave]
  · intro s hv
    subst hv
    rcases hg : GetDefaultSessionValue cfg (Set lib cfg c k (Val.str s)).1 k with ⟨c2, w, e⟩
    rw [hg] at hread
    simp only [Prod.mk.injEq] at hread
    obtain ⟨hw, he⟩ := hread
    subst hw he
    unfold GetString
    rw [hg]
    rfl
  · intro n hv
    subst hv
    rcases hg : GetDefaultSessionValue cfg (Set lib cfg c k (Val.int n)).1 k with ⟨c2, w, e⟩
    rw [hg] at hread
    simp only [Prod.mk.injEq] at hread
    obtain ⟨hw, he⟩ := hread
    subst hw he
    unfold GetInt
    rw [hg]
    rfl

/-- C1 as amended, at a concrete request: `Set(c, "hello", "world")` on a
request without cookies, as in `SomeCookiesHandler`. -/
theorem C1_set_get_round_trip_witness :
    (Set demoLib initialConfig emptyContext (.str "hello") (Val.str "world")).2 = none ∧
    (GetDefaultSessionValue initialConfig
      (Set demoLib initialConfig emptyContext (.str "hello") (Val.str "world")).1
      (.str "hello")).2 = (Val.str "world", none) ∧
    (∀ s : String, Val.str "world" = Val.str s →
      (GetString initialConfig
        (Set demoLib initialConfig emptyContext (.str "hello") (Val.str "world")).1
        (.str "hello")).2 = (s, none)) ∧
    (∀ n : Int, Val.str "world" = Val.int n →
      (GetInt initialConfig
        (Set demoLib initialConfig emptyContext (.str "hello") (Val.str "world")).1
        (.str "hello")).2 = (n, none)) :=
  C1_set_get_round_trip demoLib initialConfig emptyContext (.str "hello") (Val.str "world")
    (by decide) rfl rfl

/-- C3. Validate failure semantics: whenever `ValidateJWTToken` returns a
non-nil error the username it returns is empty; and when the token string it
finds (the non-empty header, or with an empty header the string of the token
session) parses and verifies but its claims hold no string under `sub`, it
returns the empty username and the error
`failed to fetch username from token`. -/
theorem C3_validate_failure (lib : Lib) (cfg : Config) (now : Int) (c : Context) :
    ((ValidateJWTToken lib cfg now c).2.2 ≠ none → (ValidateJWTToken lib cfg now c).2.1 = "") ∧
    (∀ (t : String) (claims : Claims),
      ((c.Authorization = t ∧ t ≠ "") ∨
        (c.Authorization = "" ∧ (GetTokenString cfg c).2 = (t, none))) →
      lib.ParseFromRequest cfg.SecretKey now t = .ok ⟨true, claims⟩ →
      (∀ m u, claims = .mapClaims m → mapGet m "sub" ≠ some (Val.str u)) →
      (ValidateJWTToken lib cfg now c).2 = ("", some "failed to fetch username from token")) := by
  constructor
  · intro herr
    by_cases hh : c.Authorization = ""
    · rw [ValidateJWTToken_of_session lib cfg now c hh] at herr ⊢
      rcases hg : GetTokenString cfg c with ⟨c1, t, e⟩
      rw [hg] at herr
      cases e with
      | some err => rfl
      | none => exact validateTokenString_error lib cfg now c1 t herr
    · rw [ValidateJWTToken_of_header lib cfg now c hh] at herr ⊢
      exact validateTokenString_error lib cfg now c _ herr
  · intro t claims hfound hp hsub
    rcases hfound with ⟨hh, hne⟩ | ⟨hh, hg⟩
    · subst hh
      rw [ValidateJWTToken_of_header lib cfg now c hne]
      exact validateTokenString_no_sub lib cfg now c _ claims hp hsub
    · rw [ValidateJWTToken_of_session lib cfg now c hh]
      rcases hg1 : GetTokenString cfg c with ⟨c1, t1, e⟩
      rw [hg1] at hg
      simp only [Prod.mk.injEq] at hg
      obtain ⟨ht, he⟩ := hg
      subst ht he
      exact validateTokenString_no_sub lib cfg now c1 _ claims hp hsub

/-- C3 on a request whose header token verifies and carries no `sub` claim:
the username is empty and the error is non-nil. -/
theorem C3_validate_failure_witness :
    (ValidateJWTToken
      { demoLib with ParseFromRequest := fun _ _ _ => .ok ⟨true, .mapClaims []⟩ }
      initialConfig 0 { emptyContext with Authorization := "a.b.c" }).2.1 = "" ∧
    (ValidateJWTToken
      { demoLib with ParseFromRequest := fun _ _ _ => .ok ⟨true, .mapClaims []⟩ }
      initialConfig 0 { emptyContext with Authorization := "a.b.c" }).2
      = ("", some "failed to fetch username from token") :=
  ⟨(C3_validate_failure _ initialConfig 0 { emptyContext with Authorization := "a.b.c" }).1
      (by decide),
   (C3_validate_failure _ initialConfig 0 { emptyContext with Authorization := "a.b.c" }).2
      "a.b.c" (.mapClaims []) (Or.inl ⟨rfl, by decide⟩) rfl
      (by intro m u hm; cases hm; simp [mapGet])⟩

/-- C4. Missing token is rejected: on a request with an empty `Authorization`
header whose token session holds no value under the key `JwtTokenName`,
`ValidateJWTToken` returns the empty username and a non-nil error, namely the
error of the store when it could not return the token session and
`failed get token string` otherwise; the result is the same for every
behaviour of the token library and every clock, no token is parsed. -/
theorem C4_missing_token (lib : Lib) (cfg : Config) (now : Int) (c : Context)
    (hheader : c.Authorization = "")
    (hmissing : mapGet (storeGet c (if cfg.JwtTokenName = "" then cfg.DefaultSessionName
      else cfg.JwtTokenName)).2.1.Values (.str cfg.JwtTokenName) = none) :
    (ValidateJWTToken lib cfg now c).2 =
      ("", some (match (storeGet c (if cfg.JwtTokenName = "" then cfg.DefaultSessionName
          else cfg.JwtTokenName)).2.2 with
        | some err => err
        | none => "failed get token string")) ∧
    (ValidateJWTToken lib cfg now c).2.2 ≠ none ∧
    (∀ (lib1 : Lib) (now1 : Int),
      ValidateJWTToken lib1 cfg now1 c = ValidateJWTToken lib cfg now c) := by
  have key : ∀ (lib1 : Lib) (now1 : Int), (ValidateJWTToken lib1 cfg now1 c) =
      ((storeGet c (if cfg.JwtTokenName = "" then cfg.DefaultSessionName
          else cfg.JwtTokenName)).1, "",
        some (match (storeGet c (if cfg.JwtTokenName = "" then cfg.DefaultSessionName
            else cfg.JwtTokenName)).2.2 with
          | some err => err
          | none => "failed get token string")) := by
    intro lib1 now1
    rw [ValidateJWTToken_of_session lib1 cfg now1 c hheader]
    rcases h : storeGet c (if cfg.JwtTokenName = "" then cfg.DefaultSessionName
      else cfg.JwtTokenName) with ⟨c1, s, e⟩
    rw [h] at hmissing
    simp only at hmissing
    cases e with
    | some err => simp [GetTokenString, GetSessionValue, h]
    | none => simp [GetTokenString, GetSessionValue, h, Values.index, hmissing, Val.nil]
  refine ⟨?_, ?_, ?_⟩
  · rw [key lib now]
  · rw [key lib now]
    simp
  · intro lib1 now1
    rw [key lib now, key lib1 now1]

/-- C4 on a request without `Authorization` header and without cookies. -/
theorem C4_missing_token_witness :
    (ValidateJWTToken demoLib initialConfig 0 emptyContext).2
      = ("", some "failed get token string") ∧
    (ValidateJWTToken demoLib initialConfig 0 emptyContext).2.2 ≠ none :=
  ⟨(C4_missing_token demoLib initialConfig 0 emptyContext rfl rfl).1,
   (C4_missing_token demoLib initialConfig 0 emptyContext rfl rfl).2.1⟩

/-- C5, the claim as stated fails: on the request of `SomeCookiesHandler`,
after `Set(c, "hello", "world")`, `Delete(c, "hello")` returns the nil error
and the following `GetDefaultSessionValue(c, "hello")` returns the nil error
too, where the claim asks for a non-nil not-found error. -/
theorem C5_counterexample :
    (Delete initialConfig helloContext (.str "hello")).2 = none ∧
    (GetDefaultSessionValue initialConfig
      (Delete initialConfig helloContext (.str "hello")).1 (.str "hello")).2.2 = none := by
  constructor <;> rfl

/-- C5 as amended: after `DeleteSessionValue c s k` returned the nil error,
`GetSessionValue c s k` in the same request returns the nil value and the nil
error, so neither the value stored before nor a not-found error; the same for
`Delete` and `GetDefaultSessionValue`, where `GetString` reports the
conversion error; and `GetSessionValue` returns the nil value and the nil error
whenever the key is absent from a session the store returns without error. -/
theorem C5_delete_then_get (cfg : Config) (c : Context) (sessionName : String) (key : Scalar) :
    ((DeleteSessionValue cfg c sessionName key).2 = none →
      (GetSessionValue cfg (DeleteSessionValue cfg c sessionName key).1 sessionName key).2
        = (Val.nil, none)) ∧
    ((Delete cfg c key).2 = none →
      (GetDefaultSessionValue cfg (Delete cfg c key).1 key).2 = (Val.nil, none) ∧
      (GetString cfg (Delete cfg c key).1 key).2
        = ("", some "convert session value to string failed")) ∧
    ((storeGet c (if sessionName = "" then cfg.DefaultSessionName else sessionName)).2.2 = none →
      mapGet (storeGet c (if sessionName = "" then cfg.DefaultSessionName
        else sessionName)).2.1.Values key = none →
      (GetSessionValue cfg c sessionName key).2 = (Val.nil, none)) := by
  have main : ∀ sn : String, (DeleteSessionValue cfg c sn key).2 = none →
      (GetSessionValue cfg (DeleteSessionValue cfg c sn key).1 sn key).2 = (Val.nil, none) := by
    intro sn hdel
    rcases h : storeGet c (if sn = "" then cfg.DefaultSessionName else sn) with ⟨c1, s, e⟩
    cases e with
    | some err => simp [DeleteSessionValue, h] at hdel
    | none =>
      simp only [DeleteSessionValue, h]
      rw [GetSessionValue_of_get cfg _ _ sn _ key _ rfl (storeGet_putSession c1 _ _)]
      simp [Values.index, mapGet_mapDelete_self]
  refine ⟨main sessionName, ?_, ?_⟩
  · intro hdel
    have hval := main cfg.DefaultSessionName hdel
    refine ⟨hval, ?_⟩
    have hval2 : (GetDefaultSessionValue cfg (Delete cfg c key).1 key).2 = (Val.nil, none) := hval
    rcases hg : GetDefaultSessionValue cfg (Delete cfg c key).1 key with ⟨c2, w, e⟩
    rw [hg] at hval2
    simp only [Prod.mk.injEq] at hval2
    obtain ⟨hw, he⟩ := hval2
    subst hw he
    unfold GetString
    rw [hg]
    rfl
  · intro hget habs
    rcases h : storeGet c (if sessionName = "" then cfg.DefaultSessionName else sessionName)
      with ⟨c1, s, e⟩
    rw [h] at hget habs
    simp only at hget habs
    subst hget
    rw [GetSessionValue_of_get cfg c c1 sessionName _ key s rfl h]
    simp [Values.index, habs]

/-- C5 as amended, on the request of `SomeCookiesHandler`. -/
theorem C5_delete_then_get_witness :
    (GetSessionValue initialConfig
      (DeleteSessionValue initialConfig helloContext "" (.str "hello")).1 ""
      (.str "hello")).2 = (Val.nil, none) ∧
    ((GetDefaultSessionValue initialConfig
        (Delete initialConfig helloContext (.str "hello")).1 (.str "hello")).2 = (Val.nil, none) ∧
      (GetString initialConfig (Delete initialConfig helloContext (.str "hello")).1
        (.str "hello")).2 = ("", some "convert session value to string failed")) ∧
    (GetSessionValue initialConfig helloContext "" (.str "bye")).2 = (Val.nil, none) :=
  ⟨(C5_delete_then_get initialConfig helloContext "" (.str "hello")).1 rfl,
   (C5_delete_then_get initialConfig helloContext "" (.str "hello")).2.1 rfl,
   (C5_delete_then_get initialConfig helloContext "" (.str "bye")).2.2 rfl rfl⟩

/-- C6. Flashes are single-use: for a session name (empty and `default`
standing for `DefaultFlashSessionName`) whose session the store returns
without error and which holds no flash yet, after `SetSessionFlash` added the
values `v1 .. vn` to it, the first `GetSessionFlashes` returns exactly
`[v1, .., vn]` in this order and the second one, right after it in the same
request, returns the empty list; none of the calls panics. -/
theorem C6_flashes_single_use (lib : Lib) (cfg : Config) (c : Context) (sessionName : String)
    (vs : List Val)
    (hget : (storeGet c (if sessionName = "" ∨ sessionName = defaultShortName then
      cfg.DefaultFlashSessionName else sessionName)).2.2 = none)
    (hfresh : mapGet (storeGet c (if sessionName = "" ∨ sessionName = defaultShortName then
      cfg.DefaultFlashSessionName else sessionName)).2.1.Values
      (.str (if sessionName = "" ∨ sessionName = defaultShortName then
        cfg.DefaultFlashSessionName else sessionName)) = none) :
    ∃ c1 c2 c3 : Context,
      setSessionFlashes lib cfg c sessionName vs = some c1 ∧
      GetSessionFlashes lib cfg c1 sessionName = some (c2, vs) ∧
      GetSessionFlashes lib cfg c2 sessionName = some (c3, []) := by
  have h0 : HoldsFlashes c (if sessionName = "" ∨ sessionName = defaultShortName then
      cfg.DefaultFlashSessionName else sessionName) [] :=
    ⟨hget, by simp [flashesOf, hfresh]⟩
  obtain ⟨c1, hadd, h1⟩ := setSessionFlashes_holds lib cfg sessionName _ rfl vs c [] h0
  rw [List.nil_append] at h1
  obtain ⟨c2, hfirst, h2⟩ := GetSessionFlashes_holds lib cfg c1 sessionName _ vs rfl h1
  obtain ⟨c3, hsecond, _⟩ := GetSessionFlashes_holds lib cfg c2 sessionName _ [] rfl h2
  exact ⟨c1, c2, c3, hadd, hfirst, hsecond⟩

/-- C6 for the two flashes `ValidateJwtLoginHandler` sets after a login, on a
request without cookies. -/
theorem C6_flashes_single_use_witness :
    ∃ c1 c2 c3 : Context,
      setSessionFlashes demoLib initialConfig emptyContext ""
        [Val.str "success : successful login", Val.str "username : admin"] = some c1 ∧
      GetSessionFlashes demoLib initialConfig c1 ""
        = some (c2, [Val.str "success : successful login", Val.str "username : admin"]) ∧
      GetSessionFlashes demoLib initialConfig c2 "" = some (c3, []) :=
  C6_flashes_single_use demoLib initialConfig emptyContext ""
    [Val.str "success : successful login", Val.str "username : admin"] rfl rfl

/-- C7. `SetMessage`, `DeleteSession`, `SetSessionFlash` and
`GetSessionFlashes` treat the names `""` and `"default"` alike, and
`GetSessionValue` and `DeleteSessionValue` do not: with the initial
configuration, after `SetMessage` of `k`, `v` with `SessionName: "default"`,
`GetSessionValue(c, "default", k)` returns the nil value (it reads a session
named `default`) while `GetSessionValue(c, "", k)` returns `v`; and
`DeleteSessionValue(c, "default", k)` leaves `v` in the default session. -/
theorem C7_default_name_resolution (lib : Lib) (cfg : Config) (c : Context) (k : Scalar)
    (v : Val) (o : Option Options) :
    SetMessage lib cfg c { Key := k, Value := v, SessionName := "default", Options := o }
      = SetMessage lib cfg c { Key := k, Value := v, SessionName := "", Options := o } ∧
    DeleteSession lib cfg c "default" = DeleteSession lib cfg c "" ∧
    SetSessionFlash lib cfg c { Flash := v, SessionName := "default" }
      = SetSessionFlash lib cfg c { Flash := v, SessionName := "" } ∧
    GetSessionFlashes lib cfg c "default" = GetSessionFlashes lib cfg c "" ∧
    (GetSessionValue initialConfig
      (SetMessage demoLib initialConfig emptyContext
        { Key := .str "k", Value := Val.str "v", SessionName := "default" }).1
      "default" (.str "k")).2 = (Val.nil, none) ∧
    (GetSessionValue initialConfig
      (SetMessage demoLib initialConfig emptyContext
        { Key := .str "k", Value := Val.str "v", SessionName := "default" }).1
      "" (.str "k")).2 = (Val.str "v", none) ∧
    (GetSessionValue initialConfig
      (DeleteSessionValue initialConfig
        (SetMessage demoLib initialConfig emptyContext
          { Key := .str "k", Value := Val.str "v", SessionName := "default" }).1
        "default" (.str "k")).1
      "" (.str "k")).2 = (Val.str "v", none) := by
  refine ⟨?_, ?_, ?_, ?_, rfl, rfl, rfl⟩
  · simp [SetMessage, defaultShortName]
  · simp [DeleteSession, defaultShortName]
  · simp [SetSessionFlash, defaultShortName]
  · simp [GetSessionFlashes, defaultShortName]

/-- C8, the claim as stated fails: on a request whose token cookie the store
cannot decode, with the initial configuration, `DeleteAllSession` writes the
default session and the default flash session to the response and nothing for
the token session `jwtTokenSession`. -/
theorem C8_counterexample :
    (DeleteAllSession demoLib initialConfig
      { emptyContext with
        incoming := [("jwtTokenSession", .fails "securecookie: the value is not valid")] }
      ).written.map (fun sc => (sc.name, sc.options.MaxAge))
      = [("myDefaultSessionName", -1), ("myDefaultFlashSessionName", -1)] := by
  rfl

/-- C8 as amended: when `JwtTokenName` and `DefaultFlashSessionName` are
neither empty nor `default`, and the store returns the sessions named
`JwtTokenName`, `DefaultSessionName` and `DefaultFlashSessionName` without
error and can encode their values, then `DeleteAllSession` writes each of the
three sessions to the response with the options Path `/`, HttpOnly true and
MaxAge -1, and each of them has these options afterwards. -/
theorem C8_logout_expires_sessions (lib : Lib) (cfg : Config) (c : Context)
    (hJ1 : cfg.JwtTokenName ≠ "") (hJ2 : cfg.JwtTokenName ≠ defaultShortName)
    (hF1 : cfg.DefaultFlashSessionName ≠ "") (hF2 : cfg.DefaultFlashSessionName ≠ defaultShortName)
    (hget : ∀ n ∈ [cfg.JwtTokenName, cfg.DefaultSessionName, cfg.DefaultFlashSessionName],
      (storeGet c n).2.2 = none)
    (hsave : ∀ n ∈ [cfg.JwtTokenName, cfg.DefaultSessionName, cfg.DefaultFlashSessionName],
      lib.encodeError n (storeGet c n).2.1.Values = none) :
    ∀ n ∈ [cfg.JwtTokenName, cfg.DefaultSessionName, cfg.DefaultFlashSessionName],
      (⟨n, (storeGet c n).2.1.Values,
          { Path := "/", Domain := "", MaxAge := -1, Secure := false, HttpOnly := true }⟩ :
        SetCookie) ∈ (DeleteAllSession lib cfg c).written ∧
      (storeGet (DeleteAllSession lib cfg c) n).2.1.Options
        = { Path := "/", Domain := "", MaxAge := -1, Secure := false, HttpOnly := true } := by
  have hnJ : cfg.JwtTokenName = if cfg.JwtTokenName = "" ∨ cfg.JwtTokenName = defaultShortName
      then cfg.DefaultSessionName else cfg.JwtTokenName := by simp [hJ1, hJ2]
  have hnD : cfg.DefaultSessionName = if cfg.DefaultSessionName = "" ∨
      cfg.DefaultSessionName = defaultShortName
      then cfg.DefaultSessionName else cfg.DefaultSessionName := by split <;> rfl
  have hnF : cfg.DefaultFlashSessionName = if cfg.DefaultFlashSessionName = "" ∨
      cfg.DefaultFlashSessionName = defaultShortName
      then cfg.DefaultSessionName else cfg.DefaultFlashSessionName := by simp [hF1, hF2]
  have hall : DeleteAllSession lib cfg c =
      (DeleteSession lib cfg
        (DeleteSession lib cfg (DeleteSession lib cfg c cfg.JwtTokenName).1
          cfg.DefaultSessionName).1 cfg.DefaultFlashSessionName).1 := rfl
  rw [hall]
  have fJ := DeleteSession_frame lib cfg c cfg.JwtTokenName
  have fD := DeleteSession_frame lib cfg (DeleteSession lib cfg c cfg.JwtTokenName).1
    cfg.DefaultSessionName
  have fF := DeleteSession_frame lib cfg
    (DeleteSession lib cfg (DeleteSession lib cfg c cfg.JwtTokenName).1
      cfg.DefaultSessionName).1 cfg.DefaultFlashSessionName
  have sJ := DeleteSession_saves lib cfg c cfg.JwtTokenName cfg.JwtTokenName hnJ
    (hget _ (by simp)) (hsave _ (by simp))
  have sD := DeleteSession_saves lib cfg (DeleteSession lib cfg c cfg.JwtTokenName).1
    cfg.DefaultSessionName cfg.DefaultSessionName hnD
    (by rw [(fJ _).1]; exact hget _ (by simp))
    (by rw [(fJ _).2.1]; exact hsave _ (by simp))
  have sF := DeleteSession_saves lib cfg
    (DeleteSession lib cfg (DeleteSession lib cfg c cfg.JwtTokenName).1
      cfg.DefaultSessionName).1
    cfg.DefaultFlashSessionName cfg.DefaultFlashSessionName hnF
    (by rw [(fD _).1, (fJ _).1]; exact hget _ (by simp))
    (by rw [(fD _).2.1, (fJ _).2.1]; exact hsave _ (by simp))
  rw [(fJ _).2.1] at sD
  rw [(fD _).2.1, (fJ _).2.1] at sF
  intro n hn
  simp only [List.mem_cons, List.mem_singleton, List.not_mem_nil, or_false] at hn
  rcases hn with hn | hn | hn
  · subst hn
    exact ⟨(fF cfg.JwtTokenName).2.2.2 _ ((fD cfg.JwtTokenName).2.2.2 _ sJ.1),
      (fF cfg.JwtTokenName).2.2.1 ((fD cfg.JwtTokenName).2.2.1 sJ.2.1)⟩
  · subst hn
    exact ⟨(fF cfg.DefaultSessionName).2.2.2 _ sD.1, (fF cfg.DefaultSessionName).2.2.1 sD.2.1⟩
  · subst hn
    exact ⟨sF.1, sF.2.1⟩

/-- C8 as amended, on a request without cookies with the initial
configuration: the response holds the three expiring cookies. -/
theorem C8_logout_expires_sessions_witness :
    (DeleteAllSession demoLib initialConfig emptyContext).written.map
        (fun sc => (sc.name, sc.options.MaxAge))
      = [("jwtTokenSession", -1), ("myDefaultSessionName", -1),
          ("myDefaultFlashSessionName", -1)] ∧
    ((⟨"jwtTokenSession", (storeGet emptyContext "jwtTokenSession").2.1.Values,
          { Path := "/", Domain := "", MaxAge := -1, Secure := false, HttpOnly := true }⟩ :
        SetCookie) ∈ (DeleteAllSession demoLib initialConfig emptyContext).written ∧
      (storeGet (DeleteAllSession demoLib initialConfig emptyContext)
          "jwtTokenSession").2.1.Options
        = { Path := "/", Domain := "", MaxAge := -1, Secure := false, HttpOnly := true }) :=
  ⟨rfl,
   C8_logout_expires_sessions demoLib initialConfig emptyContext (by decide) (by decide)
    (by decide) (by decide)
    (by intro n hn; simp only [initialConfig, List.mem_cons, List.mem_singleton,
          List.not_mem_nil, or_false] at hn; rcases hn with hn | hn | hn <;> subst hn <;> rfl)
    (by intro n hn; rfl) "jwtTokenSession" (by simp [initialConfig])⟩

/-- C9. Header-first token lookup: with a non-empty `Authorization` header the
username and error of `ValidateJWTToken` are the same on any two requests with
that header, whatever their cookies and sessions, and the context is returned
as it was (no session is fetched); with an empty header and the string `t`
under `JwtTokenName` in the token session, they are those of validating `t`,
which for a non-empty `t` are those of `ValidateJWTToken` on the same request
with header `t`. -/
theorem C9_header_first (lib : Lib) (cfg : Config) (now : Int) (c1 c2 : Context) :
    (c1.Authorization ≠ "" → c2.Authorization = c1.Authorization →
      (ValidateJWTToken lib cfg now c1).2 = (ValidateJWTToken lib cfg now c2).2 ∧
      (ValidateJWTToken lib cfg now c1).1 = c1) ∧
    (∀ t : String, c1.Authorization = "" → (GetTokenString cfg c1).2 = (t, none) →
      (ValidateJWTToken lib cfg now c1).2 = (validateTokenString lib cfg now c1 t).2 ∧
      (t ≠ "" → (ValidateJWTToken lib cfg now c1).2 =
        (ValidateJWTToken lib cfg now { c1 with Authorization := t }).2)) := by
  constructor
  · intro hne heq
    have hne2 : c2.Authorization ≠ "" := by rw [heq]; exact hne
    rw [ValidateJWTToken_of_header lib cfg now c1 hne, ValidateJWTToken_of_header lib cfg now c2 hne2,
      heq]
    refine ⟨validateTokenString_context lib cfg now c1 c2 _, ?_⟩
    unfold validateTokenString
    simp only
    cases lib.ParseFromRequest cfg.SecretKey now c1.Authorization with
    | error e => rfl
    | ok token =>
      obtain ⟨valid, claims⟩ := token
      cases valid
      · rfl
      · cases claims with
        | other => rfl
        | mapClaims m =>
          rcases hm : mapGet m "sub" with _ | ⟨⟨_ | u | n | b | f⟩ | xs⟩ <;> simp [hm]
  · intro t hh hg
    have hfirst : (ValidateJWTToken lib cfg now c1).2 = (validateTokenString lib cfg now c1 t).2 := by
      rw [ValidateJWTToken_of_session lib cfg now c1 hh]
      rcases hg1 : GetTokenString cfg c1 with ⟨c3, t1, e⟩
      rw [hg1] at hg
      simp only [Prod.mk.injEq] at hg
      obtain ⟨ht, he⟩ := hg
      subst ht he
      exact validateTokenString_context lib cfg now c3 c1 t1
    refine ⟨hfirst, ?_⟩
    intro hne
    rw [hfirst, ValidateJWTToken_of_header lib cfg now { c1 with Authorization := t } hne]
    exact validateTokenString_context lib cfg now _ _ t

/-- Two requests for C9 with the header `jwt:admin`: one without cookies, one
whose token session holds another token. -/
theorem C9_header_first_witness :
    ((ValidateJWTToken demoLib initialConfig 0
        { emptyContext with Authorization := "jwt:admin" }).2 =
      (ValidateJWTToken demoLib initialConfig 0
        { emptyContext with
          Authorization := "jwt:admin"
          incoming := [("jwtTokenSession",
            .values [(.str "jwtTokenSession", Val.str "jwt:user1")])] }).2 ∧
      (ValidateJWTToken demoLib initialConfig 0
        { emptyContext with Authorization := "jwt:admin" }).1 =
        { emptyContext with Authorization := "jwt:admin" }) ∧
    ((ValidateJWTToken demoLib initialConfig 0
        { emptyContext with
          incoming := [("jwtTokenSession",
            .values [(.str "jwtTokenSession", Val.str "jwt:user1")])] }).2 =
      (validateTokenString demoLib initialConfig 0
        { emptyContext with
          incoming := [("jwtTokenSession",
            .values [(.str "jwtTokenSession", Val.str "jwt:user1")])] } "jwt:user1").2) :=
  ⟨(C9_header_first demoLib initialConfig 0 { emptyContext with Authorization := "jwt:admin" }
      { emptyContext with
        Authorization := "jwt:admin"
        incoming := [("jwtTokenSession",
          .values [(.str "jwtTokenSession", Val.str "jwt:user1")])] }).1 (by decide) rfl,
   ((C9_header_first demoLib initialConfig 0
      { emptyContext with
        incoming := [("jwtTokenSession",
          .values [(.str "jwtTokenSession", Val.str "jwt:user1")])] } emptyContext).2
      "jwt:user1" rfl rfl).1⟩

/-- C10. One-time store construction. Let the program, from its start, assign
the configuration variables any number of times, call `NewStore`, and then
run any further calls of `NewStore` and assignments: the variable `store`
then holds the store built from the `SecretKey` of the moment of the first
call, and `newStore` was executed exactly once; the same store is there after
any two continuations. Along every sequence of steps from the start all
callers of `NewStore` find one and the same store, which is not nil, when
their call returns (calls from several goroutines are such a sequence, the
calls of `once.Do` being atomic). In every state a second `NewStore` changes
nothing (`NewStore` is idempotent), further steps after a `NewStore` leave
the store as it is, and `newStore` is executed at most once. -/
theorem C10_store_constructed_once (cfgs : List Config) (post post1 : List Step)
    (p : Package) (steps : List Step) :
    (runSteps initialPackage (cfgs.map Step.assign ++ Step.callNewStore :: post)).store
      = some (NewCookieStore (runSteps initialPackage (cfgs.map Step.assign)).cfg.SecretKey) ∧
    constructions initialPackage (cfgs.map Step.assign ++ Step.callNewStore :: post) = 1 ∧
    (runSteps initialPackage (cfgs.map Step.assign ++ Step.callNewStore :: post)).store
      = (runSteps initialPackage (cfgs.map Step.assign ++ Step.callNewStore :: post1)).store ∧
    (∀ o1 ∈ observations initialPackage steps, ∀ o2 ∈ observations initialPackage steps,
      o1 = o2 ∧ o1 ≠ none) ∧
    NewStore (NewStore p) = NewStore p ∧
    (runSteps (NewStore p) steps).store = (NewStore p).store ∧
    constructions p steps ≤ 1 := by
  have hidem : ∀ q : Package, (NewStore q).once = true := by
    intro q
    by_cases h : q.once = true <;> simp [NewStore, h]
  have hpre := runSteps_assign cfgs initialPackage
  have hfirst : ∀ rest : List Step,
      (runSteps initialPackage (cfgs.map Step.assign ++ Step.callNewStore :: rest)).store
        = some (NewCookieStore (runSteps initialPackage (cfgs.map Step.assign)).cfg.SecretKey) := by
    intro rest
    rw [runSteps_append]
    have hstep : runSteps (runSteps initialPackage (cfgs.map Step.assign))
        (Step.callNewStore :: rest)
        = runSteps (NewStore (runSteps initialPackage (cfgs.map Step.assign))) rest := rfl
    rw [hstep, (runSteps_of_once rest _ (hidem _)).1]
    have honce : (runSteps initialPackage (cfgs.map Step.assign)).once = false := hpre.2.1
    simp [NewStore, newStore, honce]
  refine ⟨hfirst post, ?_, ?_, ?_, ?_, ?_, constructions_le_one steps p⟩
  · rw [constructions_append, hpre.2.2]
    have honce : (runSteps initialPackage (cfgs.map Step.assign)).once = false := hpre.2.1
    simp only [constructions, NewStore.constructs, honce,
      (runSteps_of_once post _ (hidem (runSteps initialPackage (cfgs.map Step.assign)))).2.2]
    simp
  · rw [hfirst post, hfirst post1]
  · obtain ⟨st, hst⟩ := observations_single steps initialPackage rfl
    intro o1 h1 o2 h2
    rw [hst o1 h1, hst o2 h2]
    exact ⟨rfl, by simp⟩
  · simp [NewStore, hidem p]
    by_cases h : p.once = true <;> simp [h]
  · exact (runSteps_of_once steps _ (hidem p)).1

end GinJwtSession
